import Mathlib

/-!
Shallow embedding of the `cli-root-yo` command registry, plugin loader and
orchestrator boundary (`src/cli_root_yo/registry.py`, `plugins.py`, `app.py`,
plus the naming regex from `spec.py`), with theorems checking the
natural-language specification against it.

Python dicts are modelled as association lists in insertion order (lookup by
name, append on fresh insert, in-place update on existing key).  Opaque
callback / Typer-app payloads are modelled as numeric tokens.  Exceptions are
modelled as an `Option` error paired with the post-call state, so that
mutations performed before a raise are kept exactly as in the source.
-/

namespace CliRootYo

/-- Kind of a tree node, mirroring the `_NodeKind` enum in `registry.py`. -/
inductive NodeKind where
  | group
  | command
  | typerApp
deriving DecidableEq, Repr

/-- Python `node.kind.name.lower()` for the three `_NodeKind` members. -/
def NodeKind.lowerName : NodeKind → String
  | .group => "group"
  | .command => "command"
  | .typerApp => "typer_app"

/-- Tree node mirroring the `_Node` dataclass: kind, name, help text, order,
opaque callback and Typer-app payloads, and children (a dict keyed by name,
modelled as a list in insertion order). -/
inductive Node where
  | mk (kind : NodeKind) (name : String) (help_text : String) (order : Int)
      (callback : Option Nat) (typer_app : Option Nat) (children : List Node)

def Node.kind : Node → NodeKind
  | .mk k _ _ _ _ _ _ => k

def Node.name : Node → String
  | .mk _ n _ _ _ _ _ => n

def Node.help_text : Node → String
  | .mk _ _ h _ _ _ _ => h

def Node.order : Node → Int
  | .mk _ _ _ o _ _ _ => o

def Node.callback : Node → Option Nat
  | .mk _ _ _ _ cb _ _ => cb

def Node.typer_app : Node → Option Nat
  | .mk _ _ _ _ _ ta _ => ta

def Node.children : Node → List Node
  | .mk _ _ _ _ _ _ c => c

/-- Update of `existing.help_text` (the merge backfill in `add_group`). -/
def Node.withHelp : Node → String → Node
  | .mk k n _ o cb ta c, h => .mk k n h o cb ta c

/-- Replacement of a node's children dict (used to model in-place mutation of
an interior node reached through `_resolve_parent`). -/
def Node.withChildren : Node → List Node → Node
  | .mk k n h o cb ta _, c => .mk k n h o cb ta c

/-- Registry state: root dict, frozen flag, auto-order counter and the
reserved-name set, mirroring `CommandRegistry.__init__`. -/
structure Registry where
  roots : List Node
  frozen : Bool
  counter : Int
  reserved : List String

/-- Module constant `_ALWAYS_RESERVED = frozenset({"version", "info"})`. -/
def alwaysReserved : List String := ["version", "info"]

/-- Constructor `CommandRegistry(reserved_names=...)`: empty roots, unfrozen,
counter 0, reserved set `_ALWAYS_RESERVED | reserved_names`. -/
def Registry.init (reserved_names : List String) : Registry :=
  { roots := [], frozen := false, counter := 0,
    reserved := alwaysReserved ++ reserved_names }

/-- Lowercase ASCII letter test, the `[a-z]` character class. -/
def isLowerAZ (c : Char) : Bool := 'a' ≤ c && c ≤ 'z'

/-- The `[a-z0-9-]` character class. -/
def isNameTailChar (c : Char) : Bool :=
  isLowerAZ c || ('0' ≤ c && c ≤ '9') || c == '-'

/-- Body of `^[a-z][a-z0-9-]*$` on a character list. -/
def nameCharsOk : List Char → Bool
  | [] => false
  | c :: cs => isLowerAZ c && cs.all isNameTailChar

/-- Python `NAME_RE.match(name)` with `NAME_RE = re.compile(r"^[a-z][a-z0-9-]*$")`
viewed as a Boolean: `$` in Python also matches just before one trailing
newline, hence the `dropLast` on a final `'\n'`. -/
def nameMatches (s : String) : Bool :=
  let l := s.toList
  nameCharsOk (if l.getLast? == some '\n' then l.dropLast else l)

/-- Errors raised by registry operations: `ValueError` for an invalid name,
`RegistryConflictError(path, detail)` and `RegistryFrozenError`. -/
inductive RegError where
  | invalidName (name : String)
  | conflict (path : String) (detail : String)
  | frozen
deriving DecidableEq, Repr

/-- Embedding of `CommandRegistry._validate_name`. -/
def Registry.validateName (reg : Registry) (name : String) : Option RegError :=
  if !(nameMatches name) then some (.invalidName name)
  else if reg.reserved.contains name then
    some (.conflict name "is a reserved name")
  else none

/-- Embedding of `CommandRegistry._next_order`: returns the order value and the
new counter. -/
def nextOrderVal (counter : Int) : Option Int → Int × Int
  | some o => (o, counter)
  | none => (counter + 1, counter + 1)

/-- Embedding of Python `path.split("/")` on a single-character separator:
greedy split at every `'/'`, keeping empty segments, so that the empty string
splits to `[""]`.  Written on the character list so that it is structurally
recursive and evaluates inside the kernel. -/
def splitSlashAux : List Char → List Char → List String
  | [], acc => [String.mk acc.reverse]
  | c :: cs, acc =>
    if c = '/' then String.mk acc.reverse :: splitSlashAux cs []
    else splitSlashAux cs (c :: acc)

def splitSlash (s : String) : List String := splitSlashAux s.toList []

/-- Dict lookup `siblings[name]` / membership `name in siblings`. -/
def findNode (l : List Node) (n : String) : Option Node :=
  l.find? (fun nd => nd.name == n)

/-- Dict update of an existing key: replace the node named `n`, keeping its
position. -/
def replaceNode (l : List Node) (n : String) (nd' : Node) : List Node :=
  l.map (fun nd => if nd.name == n then nd' else nd)

/-- Embedding of `CommandRegistry.add_group` (root level only, as in the
source). -/
def Registry.addGroup (reg : Registry) (name : String) (help_text : String)
    (order : Option Int) : Option RegError × Registry :=
  if reg.frozen then (some .frozen, reg) else
  match reg.validateName name with
  | some e => (some e, reg)
  | none =>
    let oc := nextOrderVal reg.counter order
    let reg1 : Registry := { reg with counter := oc.2 }
    match findNode reg1.roots name with
    | some existing =>
      if existing.kind != NodeKind.group then
        (some (.conflict name "exists as a command, cannot re-register as group"), reg1)
      else if help_text != "" && existing.help_text != "" && help_text != existing.help_text then
        (some (.conflict name
          ("group help mismatch: '" ++ existing.help_text ++ "' vs '" ++ help_text ++ "'")), reg1)
      else if help_text != "" && existing.help_text == "" then
        (none, { reg1 with roots := replaceNode reg1.roots name (existing.withHelp help_text) })
      else
        (none, reg1)
    | none =>
      (none, { reg1 with
        roots := reg1.roots ++ [Node.mk .group name help_text oc.1 none none []] })

/-- Embedding of `CommandRegistry._resolve_parent` fused with the caller's
subsequent mutation of the resolved parent's children dict.  `act` is the
caller's continuation, run on the resolved sibling dict with the current
counter; it returns an optional error together with the updated siblings and
counter.  Auto-created intermediate groups get empty help and an auto order;
a non-group segment aborts with `expected group but found ...` naming the
sub-path walked so far.  Mutations made before an abort are kept, as under
Python exception semantics. -/
def resolveInsert (act : List Node → Int → Option RegError × List Node × Int) :
    List String → List String → Int → List Node → Option RegError × List Node × Int
  | [], _, counter, siblings => act siblings counter
  | p :: rest, done, counter, siblings =>
    match findNode siblings p with
    | some nd =>
      if nd.kind != NodeKind.group then
        (some (.conflict (String.intercalate "/" (done ++ [p]))
          ("expected group but found " ++ nd.kind.lowerName)), siblings, counter)
      else
        let r := resolveInsert act rest (done ++ [p]) counter nd.children
        (r.1, replaceNode siblings p (nd.withChildren r.2.1), r.2.2)
    | none =>
      let c1 := counter + 1
      let r := resolveInsert act rest (done ++ [p]) c1 []
      (r.1, siblings ++ [Node.mk .group p "" c1 none none r.2.1], r.2.2)

/-- The f-string `f"{group_path + '/' if group_path else ''}{name}"` used in
conflict messages of `add_command` / `add_typer_app` (`None` and the empty
string are both falsy). -/
def leafPathStr (group_path : Option String) (name : String) : String :=
  match group_path with
  | some gp => if gp != "" then gp ++ "/" ++ name else name
  | none => name

/-- Embedding of `CommandRegistry.add_command`. -/
def Registry.addCommand (reg : Registry) (group_path : Option String)
    (name : String) (callback : Nat) (help_text : String)
    (order : Option Int) : Option RegError × Registry :=
  if reg.frozen then (some .frozen, reg) else
  match reg.validateName name with
  | some e => (some e, reg)
  | none =>
    let oc := nextOrderVal reg.counter order
    let act : List Node → Int → Option RegError × List Node × Int :=
      fun siblings counter =>
        match findNode siblings name with
        | some existing =>
          (some (.conflict (leafPathStr group_path name)
            ("already registered as " ++ existing.kind.lowerName)), siblings, counter)
        | none =>
          (none,
            siblings ++ [Node.mk .command name help_text oc.1 (some callback) none []],
            counter)
    let r :=
      match group_path with
      | none => act reg.roots oc.2
      | some gp => resolveInsert act (splitSlash gp) [] oc.2 reg.roots
    (r.1, { reg with roots := r.2.1, counter := r.2.2 })

/-- Embedding of `CommandRegistry.add_typer_app`. -/
def Registry.addTyperApp (reg : Registry) (group_path : Option String)
    (typer_app : Nat) (name : String) (help_text : String)
    (order : Option Int) : Option RegError × Registry :=
  if reg.frozen then (some .frozen, reg) else
  match reg.validateName name with
  | some e => (some e, reg)
  | none =>
    let oc := nextOrderVal reg.counter order
    let act : List Node → Int → Option RegError × List Node × Int :=
      fun siblings counter =>
        match findNode siblings name with
        | some _ =>
          (some (.conflict (leafPathStr group_path name) "already registered"),
            siblings, counter)
        | none =>
          (none,
            siblings ++ [Node.mk .typerApp name help_text oc.1 none (some typer_app) []],
            counter)
    let r :=
      match group_path with
      | none => act reg.roots oc.2
      | some gp => resolveInsert act (splitSlash gp) [] oc.2 reg.roots
    (r.1, { reg with roots := r.2.1, counter := r.2.2 })

/-- Embedding of `CommandRegistry.freeze`. -/
def Registry.freeze (reg : Registry) : Registry := { reg with frozen := true }

/-- Embedding of the `is_frozen` property. -/
def Registry.isFrozen (reg : Registry) : Bool := reg.frozen

/-- Python `sorted(nodes, key=lambda n: n.order)`: a stable sort by `order`.
Modelled with `List.insertionSort`, which is stable and evaluates inside the
kernel. -/
def sortNodes (l : List Node) : List Node :=
  l.insertionSort (fun a b => a.order ≤ b.order)

/-- Result of materializing one node onto the Typer front end, recording the
three primitive operations `_apply_node` performs: attach a leaf command,
mount an externally built sub-app, or build and mount a named sub-Typer whose
children were applied in sorted order. -/
inductive MatTree where
  | command (name help_text : String) (callback : Option Nat)
  | mountedApp (name help_text : String) (handle : Option Nat)
  | group (name help_text : String) (children : List MatTree)

/-- Name under which a materialized entry is attached to its parent. -/
def MatTree.name : MatTree → String
  | .command n _ _ => n
  | .mountedApp n _ _ => n
  | .group n _ _ => n

/-- Embedding of `CommandRegistry._apply_node`: a COMMAND becomes a leaf, a
TYPER_APP a pass-through mount, and a GROUP a sub-Typer onto which its
children are applied sorted by `order`. -/
def applyNode (n : Node) : MatTree :=
  match n with
  | .mk .command name help _ cb _ _ => .command name help cb
  | .mk .typerApp name help _ _ ta _ => .mountedApp name help ta
  | .mk .group name help _ _ _ children =>
    .group name help ((sortNodes children).attach.map (fun c => applyNode c.1))
termination_by sizeOf n
decreasing_by
  have h1 : sizeOf c.1 < sizeOf children := by
    apply List.sizeOf_lt_of_mem
    exact (List.perm_insertionSort _ children).mem_iff.mp c.2
  simp only [Node.mk.sizeOf_spec]
  omega

/-- Embedding of `CommandRegistry.apply`: all root nodes, sorted by `order`,
each applied onto the root app. -/
def Registry.applyTree (reg : Registry) : List MatTree :=
  (sortNodes reg.roots).map applyNode

/-- Names of the root-level entries in materialization order. -/
def Registry.rootNames (reg : Registry) : List String :=
  (sortNodes reg.roots).map Node.name

/-! Plugin loader (`plugins.py`).  Resolution and invocation of one plugin
reference are summarised by a behaviour: the reference fails to resolve, or
the resolved callable runs fine, raises an ordinary exception, or raises a
`PluginLoadError` itself (the re-entrant loader-within-a-plugin case). -/

/-- Outcome of resolving and invoking one plugin reference. -/
inductive PluginBehavior where
  | resolveFail (msg : String)
  | ok
  | raiseExc (msg : String)
  | raisePluginError (name : String) (reason : String)
deriving DecidableEq, Repr

/-- Payload of `PluginLoadError(plugin_name, reason)`. -/
structure PluginErr where
  plugin_name : String
  reason : String
deriving DecidableEq, Repr

/-- Embedding of `_load_explicit` / `_load_entry_point` for one reference:
returns the error (if any) and the list of plugin references actually
invoked (empty when resolution failed; the reference itself otherwise).
An ordinary exception is wrapped as `PluginLoadError(ref, str(exc))`; a
`PluginLoadError` raised by the plugin is re-raised unchanged. -/
def loadOne (resolve : String → PluginBehavior) (ref : String) :
    Option PluginErr × List String :=
  match resolve ref with
  | .resolveFail msg => (some ⟨ref, msg⟩, [])
  | .ok => (none, [ref])
  | .raiseExc msg => (some ⟨ref, msg⟩, [ref])
  | .raisePluginError n r => (some ⟨n, r⟩, [ref])

/-- One loading phase: references processed in list order, stopping at the
first error. -/
def loadList (resolve : String → PluginBehavior) :
    List String → Option PluginErr × List String
  | [] => (none, [])
  | ref :: rest =>
    let r := loadOne resolve ref
    match r.1 with
    | some e => (some e, r.2)
    | none =>
      let rr := loadList resolve rest
      (rr.1, r.2 ++ rr.2)

/-- Embedding of `load_plugins`: phase 1 walks `spec.plugins.explicit` via
the import machinery, phase 2 walks `spec.plugins.entry_points` via the
entry-point facility; the two resolvers model those two external
mechanisms.  The second component is the sequence of plugin invocations. -/
def loadPlugins (resolveExplicit resolveEp : String → PluginBehavior)
    (explicit entryPoints : List String) : Option PluginErr × List String :=
  let r1 := loadList resolveExplicit explicit
  match r1.1 with
  | some e => (some e, r1.2)
  | none =>
    let r2 := loadList resolveEp entryPoints
    (r2.1, r1.2 ++ r2.2)

/-! Orchestrator boundary (`app.py: run`).  The body of the `try` block either
returns normally, raises `SystemExit`, raises a framework error (a
`CliRootYoError` subclass) or raises some other exception; `runBoundary`
embeds the `except` clauses that map each outcome to an exit code and the
error lines `run` itself prints. -/

/-- Framework error taxonomy: the `CliRootYoError` subclasses that can escape
the `try` block of `run`. -/
inductive FrameworkError where
  | specValidation (detail : String)
  | registryFrozen
  | registryConflict (path : String) (detail : String)
  | pluginLoad (name : String) (reason : String)
  | contextNotInitialized
deriving DecidableEq, Repr

/-- The `exit_code` class attribute: every subclass sets it to 1. -/
def FrameworkError.exitCode (_ : FrameworkError) : Int := 1

/-- The `str(exc)` message each subclass constructor builds in `errors.py`. -/
def FrameworkError.message : FrameworkError → String
  | .specValidation d => "Invalid CliSpec: " ++ d
  | .registryFrozen => "Cannot register: command registry is frozen."
  | .registryConflict p d =>
      "Registration conflict at '" ++ p ++ "'" ++ (if d != "" then ": " ++ d else "")
  | .pluginLoad n r =>
      "Failed to load plugin '" ++ n ++ "'" ++ (if r != "" then ": " ++ r else "")
  | .contextNotInitialized => "RuntimeContext has not been initialized."

/-- Abstract outcome of the `try` block of `run`. -/
inductive AppOutcome where
  | success
  | systemExit (code : Option Int)
  | frameworkError (e : FrameworkError)
  | otherError (msg : String)

/-- What `run` hands back: the returned exit code, the error lines `run`
itself printed, and whether a traceback was printed. -/
structure RunResult where
  exitCode : Int
  errorLines : List String
  tracebackPrinted : Bool
deriving DecidableEq, Repr

/-- Embedding of the `except` clauses of `run`: success returns 0;
`SystemExit` returns its code when it is an int, else 0; a framework error
returns `exc.exit_code` after printing `str(exc)` (traceback only in debug
mode); any other exception prints `Unexpected error: ...` and returns 1. -/
def runBoundary (outcome : AppOutcome) (debug : Bool) : RunResult :=
  match outcome with
  | .success => { exitCode := 0, errorLines := [], tracebackPrinted := false }
  | .systemExit c => { exitCode := c.getD 0, errorLines := [], tracebackPrinted := false }
  | .frameworkError e =>
      { exitCode := e.exitCode, errorLines := [e.message], tracebackPrinted := debug }
  | .otherError msg =>
      { exitCode := 1, errorLines := ["Unexpected error: " ++ msg], tracebackPrinted := debug }

/-! Built-in registration sequence of `create_app` (`app.py`), as far as the
registry is concerned.  The callbacks are opaque; distinct numeric tokens
stand for them. -/

/-- Reserved names `create_app` computes from the enabled optional groups. -/
def buildReserved (hasConfig hasEnv : Bool) : List String :=
  (if hasConfig then ["config"] else []) ++ (if hasEnv then ["env"] else [])

/-- Python `registry._reserved.discard(n)`. -/
def Registry.discardReserved (reg : Registry) (n : String) : Registry :=
  { reg with reserved := reg.reserved.filter (fun x => x != n) }

/-- Python `registry._reserved.add(n)` (set semantics: no duplicate). -/
def Registry.addReserved (reg : Registry) (n : String) : Registry :=
  { reg with reserved :=
      if reg.reserved.contains n then reg.reserved else reg.reserved ++ [n] }

/-- Sequencing of registration steps under Python exception propagation:
a raised error aborts the remaining steps. -/
def andThenReg (r : Option RegError × Registry)
    (f : Registry → Option RegError × Registry) : Option RegError × Registry :=
  match r.1 with
  | some e => (some e, r.2)
  | none => f r.2

/-- Embedding of `_register_version`: temporarily lift the reservation, add
the `version` command at order 0, restore the reservation. -/
def registerVersion (reg : Registry) : Option RegError × Registry :=
  let reg1 := reg.discardReserved "version"
  let r := reg1.addCommand none "version" 100 "Show version." (some 0)
  andThenReg r (fun g => (none, g.addReserved "version"))

/-- Embedding of `_register_info`: the `info` command at order 1. -/
def registerInfo (reg : Registry) : Option RegError × Registry :=
  let reg1 := reg.discardReserved "info"
  let r := reg1.addCommand none "info" 101 "Show system info." (some 1)
  andThenReg r (fun g => (none, g.addReserved "info"))

/-- Embedding of `_register_config_group`: the `config` group and its six
subcommands. -/
def registerConfigGroup (reg : Registry) : Option RegError × Registry :=
  let reg1 := reg.discardReserved "config"
  let r := reg1.addGroup "config" "Configuration management." none
  andThenReg r (fun g =>
    let g1 := g.addReserved "config"
    andThenReg (g1.addCommand (some "config") "path" 110 "Show config file path." none)
      (fun g2 =>
    andThenReg (g2.addCommand (some "config") "init" 111 "Create config from template." none)
      (fun g3 =>
    andThenReg (g3.addCommand (some "config") "show" 112 "Show config file contents." none)
      (fun g4 =>
    andThenReg (g4.addCommand (some "config") "validate" 113 "Validate config file." none)
      (fun g5 =>
    andThenReg (g5.addCommand (some "config") "edit" 114 "Edit config in editor." none)
      (fun g6 =>
    g6.addCommand (some "config") "reset" 115 "Reset config to template." none))))))

/-- Embedding of `_register_env_group`: the `env` group and its four
subcommands. -/
def registerEnvGroup (reg : Registry) : Option RegError × Registry :=
  let reg1 := reg.discardReserved "env"
  let r := reg1.addGroup "env" "Environment management." none
  andThenReg r (fun g =>
    let g1 := g.addReserved "env"
    andThenReg (g1.addCommand (some "env") "status" 120 "Show environment status." none)
      (fun g2 =>
    andThenReg (g2.addCommand (some "env") "activate" 121 "Print activation command." none)
      (fun g3 =>
    andThenReg (g3.addCommand (some "env") "deactivate" 122 "Print deactivation command." none)
      (fun g4 =>
    g4.addCommand (some "env") "reset" 123 "Print reset commands." none))))

/-- Registry-facing portion of `create_app`: build the registry with the
reserved set derived from the enabled optional groups and run the built-in
registrations (version, info, then the enabled optional groups). -/
def createAppRegistry (hasConfig hasEnv : Bool) : Option RegError × Registry :=
  let reg := Registry.init (buildReserved hasConfig hasEnv)
  andThenReg (registerVersion reg) (fun g1 =>
  andThenReg (registerInfo g1) (fun g2 =>
  andThenReg (if hasConfig then registerConfigGroup g2 else (none, g2)) (fun g3 =>
  if hasEnv then registerEnvGroup g3 else (none, g3))))

/-! Helper lemmas. -/

theorem findNode_nil (n : String) : findNode [] n = none := rfl

theorem findNode_append (l₁ l₂ : List Node) (n : String) :
    findNode (l₁ ++ l₂) n = (findNode l₁ n).or (findNode l₂ n) := by
  simp [findNode, List.find?_append]

theorem findNode_singleton_self (nd : Node) (n : String) (h : (nd.name == n) = true) :
    findNode [nd] n = some nd := by
  simp [findNode, List.find?, h]

theorem replaceNode_of_findNode_none {l : List Node} {n : String}
    (h : findNode l n = none) (nd' : Node) : replaceNode l n nd' = l := by
  rw [findNode, List.find?_eq_none] at h
  unfold replaceNode
  have hc : ∀ x ∈ l, (if x.name == n then nd' else x) = x := by
    intro x hx
    have hb := h x hx
    simp only [Bool.not_eq_true] at hb
    simp [hb]
  calc l.map (fun nd => if nd.name == n then nd' else nd)
      = l.map (fun nd => nd) := List.map_congr_left hc
    _ = l := List.map_id' l

theorem sortNodes_pair (a b : Node) :
    sortNodes [a, b] = if a.order ≤ b.order then [a, b] else [b, a] := by
  by_cases h : a.order ≤ b.order <;>
    simp [sortNodes, List.insertionSort, List.orderedInsert, h]

theorem addGroup_preserves_frozen (reg : Registry) (n h : String) (o : Option Int) :
    ((reg.addGroup n h o).2).frozen = reg.frozen := by
  unfold Registry.addGroup
  dsimp only
  repeat' split <;> try rfl

theorem addCommand_preserves_frozen (reg : Registry) (gp : Option String)
    (n : String) (cb : Nat) (h : String) (o : Option Int) :
    ((reg.addCommand gp n cb h o).2).frozen = reg.frozen := by
  unfold Registry.addCommand
  dsimp only
  repeat' split <;> try rfl

theorem addTyperApp_preserves_frozen (reg : Registry) (gp : Option String)
    (ta : Nat) (n h : String) (o : Option Int) :
    ((reg.addTyperApp gp ta n h o).2).frozen = reg.frozen := by
  unfold Registry.addTyperApp
  dsimp only
  repeat' split <;> try rfl

/-! Claim theorems. -/

/-- C2: after `freeze()` every registration operation (`add_group`,
`add_command`, `add_typer_app`) fails with `RegistryFrozenError` regardless of
its arguments and leaves the registry (tree, counter, reserved set) unchanged;
`freeze` is idempotent; and no registry operation ever turns the frozen flag
back off. -/
theorem frozen_registry_contract :
    (∀ (reg : Registry) (n h : String) (o : Option Int), reg.frozen = true →
      reg.addGroup n h o = (some .frozen, reg)) ∧
    (∀ (reg : Registry) (gp : Option String) (n : String) (cb : Nat) (h : String)
      (o : Option Int), reg.frozen = true →
      reg.addCommand gp n cb h o = (some .frozen, reg)) ∧
    (∀ (reg : Registry) (gp : Option String) (ta : Nat) (n h : String)
      (o : Option Int), reg.frozen = true →
      reg.addTyperApp gp ta n h o = (some .frozen, reg)) ∧
    (∀ reg : Registry, reg.freeze.freeze = reg.freeze) ∧
    (∀ reg : Registry, (reg.freeze).frozen = true) ∧
    (∀ (reg : Registry) (n h : String) (o : Option Int),
      ((reg.addGroup n h o).2).frozen = reg.frozen) ∧
    (∀ (reg : Registry) (gp : Option String) (n : String) (cb : Nat) (h : String)
      (o : Option Int), ((reg.addCommand gp n cb h o).2).frozen = reg.frozen) ∧
    (∀ (reg : Registry) (gp : Option String) (ta : Nat) (n h : String)
      (o : Option Int), ((reg.addTyperApp gp ta n h o).2).frozen = reg.frozen) := by
  refine ⟨?_, ?_, ?_, ?_, ?_, ?_, ?_, ?_⟩
  · intro reg n h o hf; simp [Registry.addGroup, hf]
  · intro reg gp n cb h o hf; simp [Registry.addCommand, hf]
  · intro reg gp ta n h o hf; simp [Registry.addTyperApp, hf]
  · intro reg; rfl
  · intro reg; rfl
  · exact addGroup_preserves_frozen
  · exact addCommand_preserves_frozen
  · exact addTyperApp_preserves_frozen

/-- Witness for C2 at a concrete frozen registry. -/
theorem frozen_registry_contract_witness :
    ((Registry.init []).freeze.addGroup "tools" "Help." none
      = (some .frozen, (Registry.init []).freeze)) ∧
    ((Registry.init []).freeze.addCommand none "greet" 0 "" none
      = (some .frozen, (Registry.init []).freeze)) ∧
    ((Registry.init []).freeze.addTyperApp none 7 "ext" "" none
      = (some .frozen, (Registry.init []).freeze)) :=
  ⟨frozen_registry_contract.1 _ "tools" "Help." none rfl,
   frozen_registry_contract.2.1 _ none "greet" 0 "" none rfl,
   frozen_registry_contract.2.2.1 _ none 7 "ext" "" none rfl⟩

/-- C9: the orchestrator boundary always returns an integer exit code; success
maps to 0; every framework error kind carries exit code 1 and is mapped to
return value 1 with exactly one printed error line, the traceback printed only
in debug mode; an exception outside the framework taxonomy is wrapped with the
generic `Unexpected error:` prefix and also mapped to 1; a `SystemExit` is
converted to its integer code (0 when the code is not an integer) rather than
terminating the process. -/
theorem run_exit_code_contract :
    (∀ d : Bool, runBoundary .success d
      = { exitCode := 0, errorLines := [], tracebackPrinted := false }) ∧
    (∀ e : FrameworkError, e.exitCode = 1) ∧
    (∀ (e : FrameworkError) (d : Bool), runBoundary (.frameworkError e) d
      = { exitCode := 1, errorLines := [e.message], tracebackPrinted := d }) ∧
    (∀ (m : String) (d : Bool), runBoundary (.otherError m) d
      = { exitCode := 1, errorLines := ["Unexpected error: " ++ m], tracebackPrinted := d }) ∧
    (∀ (e : FrameworkError) (d : Bool),
      (runBoundary (.frameworkError e) d).errorLines.length = 1 ∧
      (runBoundary (.frameworkError e) d).tracebackPrinted = d) ∧
    (∀ (c : Option Int) (d : Bool), runBoundary (.systemExit c) d
      = { exitCode := c.getD 0, errorLines := [], tracebackPrinted := false }) := by
  refine ⟨fun d => rfl, fun e => rfl, fun e d => rfl, fun m d => rfl,
    fun e d => ⟨rfl, rfl⟩, fun c d => rfl⟩

theorem loadList_all_ok (resolve : String → PluginBehavior) (l : List String)
    (h : ∀ x ∈ l, resolve x = .ok) : loadList resolve l = (none, l) := by
  induction l with
  | nil => rfl
  | cons ref rest ih =>
    have href : resolve ref = .ok := h ref (List.mem_cons_self ref rest)
    have hrest : ∀ x ∈ rest, resolve x = .ok :=
      fun x hx => h x (List.mem_cons_of_mem ref hx)
    simp [loadList, loadOne, href, ih hrest]

theorem loadList_ok_append (resolve : String → PluginBehavior) (pre l : List String)
    (h : ∀ x ∈ pre, resolve x = .ok) :
    loadList resolve (pre ++ l) =
      ((loadList resolve l).1, pre ++ (loadList resolve l).2) := by
  induction pre with
  | nil => simp
  | cons ref rest ih =>
    have href : resolve ref = .ok := h ref (List.mem_cons_self ref rest)
    have hrest : ∀ x ∈ rest, resolve x = .ok :=
      fun x hx => h x (List.mem_cons_of_mem ref hx)
    simp [loadList, loadOne, href, ih hrest]

/-- C8: `load_plugins` invokes every explicit-list plugin, in list order,
before every entry-point plugin, also in list order; a resolution failure
surfaces as a `PluginLoadError` carrying the reference and the cause text
without the plugin being invoked; an exception raised by an invoked plugin
surfaces as a `PluginLoadError` carrying the reference and the message; a
`PluginLoadError` raised by the plugin itself (the nested loader call) is
propagated unchanged, not re-wrapped under the outer reference; and a failure
in the entry-point phase still happens after all explicit plugins ran. -/
theorem plugin_loading_contract :
    (∀ (resE resD : String → PluginBehavior) (explicit eps : List String),
      (∀ x ∈ explicit, resE x = .ok) → (∀ x ∈ eps, resD x = .ok) →
      loadPlugins resE resD explicit eps = (none, explicit ++ eps)) ∧
    (∀ (resE resD : String → PluginBehavior) (pre : List String) (ref : String)
      (rest eps : List String) (msg : String),
      (∀ x ∈ pre, resE x = .ok) → resE ref = .resolveFail msg →
      loadPlugins resE resD (pre ++ ref :: rest) eps = (some ⟨ref, msg⟩, pre)) ∧
    (∀ (resE resD : String → PluginBehavior) (pre : List String) (ref : String)
      (rest eps : List String) (msg : String),
      (∀ x ∈ pre, resE x = .ok) → resE ref = .raiseExc msg →
      loadPlugins resE resD (pre ++ ref :: rest) eps = (some ⟨ref, msg⟩, pre ++ [ref])) ∧
    (∀ (resE resD : String → PluginBehavior) (pre : List String) (ref : String)
      (rest eps : List String) (n r : String),
      (∀ x ∈ pre, resE x = .ok) → resE ref = .raisePluginError n r →
      loadPlugins resE resD (pre ++ ref :: rest) eps = (some ⟨n, r⟩, pre ++ [ref])) ∧
    (∀ (resE resD : String → PluginBehavior) (explicit pre2 : List String)
      (ref : String) (rest : List String) (msg : String),
      (∀ x ∈ explicit, resE x = .ok) → (∀ x ∈ pre2, resD x = .ok) →
      resD ref = .raiseExc msg →
      loadPlugins resE resD explicit (pre2 ++ ref :: rest) =
        (some ⟨ref, msg⟩, explicit ++ (pre2 ++ [ref]))) := by
  refine ⟨?_, ?_, ?_, ?_, ?_⟩
  · intro resE resD explicit eps hE hD
    simp [loadPlugins, loadList_all_ok resE explicit hE, loadList_all_ok resD eps hD]
  · intro resE resD pre ref rest eps msg hpre href
    simp [loadPlugins, loadList_ok_append resE pre (ref :: rest) hpre,
      loadList, loadOne, href]
  · intro resE resD pre ref rest eps msg hpre href
    simp [loadPlugins, loadList_ok_append resE pre (ref :: rest) hpre,
      loadList, loadOne, href]
  · intro resE resD pre ref rest eps n r hpre href
    simp [loadPlugins, loadList_ok_append resE pre (ref :: rest) hpre,
      loadList, loadOne, href]
  · intro resE resD explicit pre2 ref rest msg hE hpre href
    simp [loadPlugins, loadList_all_ok resE explicit hE,
      loadList_ok_append resD pre2 (ref :: rest) hpre, loadList, loadOne, href]

/-- Witness for C8 with concrete plugin lists and behaviours. -/
theorem plugin_loading_contract_witness :
    (loadPlugins (fun _ => .ok) (fun _ => .ok) ["p1", "p2"] ["e1", "e2"]
      = (none, ["p1", "p2", "e1", "e2"])) ∧
    (loadPlugins (fun ref => if ref == "p2" then .raiseExc "boom" else .ok)
      (fun _ => .ok) (["p1"] ++ "p2" :: ["p3"]) ["e1"]
      = (some ⟨"p2", "boom"⟩, ["p1"] ++ ["p2"])) ∧
    (loadPlugins (fun ref => if ref == "p2" then .raisePluginError "inner" "cause" else .ok)
      (fun _ => .ok) (["p1"] ++ "p2" :: ["p3"]) ["e1"]
      = (some ⟨"inner", "cause"⟩, ["p1"] ++ ["p2"])) :=
  ⟨plugin_loading_contract.1 _ _ ["p1", "p2"] ["e1", "e2"]
      (by intro x hx; fin_cases hx <;> rfl) (by intro x hx; fin_cases hx <;> rfl),
   plugin_loading_contract.2.2.1 _ _ ["p1"] "p2" ["p3"] ["e1"] "boom"
      (by intro x hx; fin_cases hx; rfl) rfl,
   plugin_loading_contract.2.2.2.1 _ _ ["p1"] "p2" ["p3"] ["e1"] "inner" "cause"
      (by intro x hx; fin_cases hx; rfl) rfl⟩

/-- C7: the reserved set of a registry built by `create_app` is the fixed base
`{"version", "info"}` together with `"config"` / `"env"` exactly when the
corresponding optional group is enabled; a third-party registration under any
currently reserved name fails with a conflict naming the reserved identifier
and changes nothing; on an instance whose reservation set does not include the
name it is accepted; and the framework's own built-in registrations under the
reserved names all succeed. -/
theorem reserved_name_contract :
    (∀ hasConfig hasEnv : Bool,
      (Registry.init (buildReserved hasConfig hasEnv)).reserved.contains "version" = true ∧
      (Registry.init (buildReserved hasConfig hasEnv)).reserved.contains "info" = true ∧
      (Registry.init (buildReserved hasConfig hasEnv)).reserved.contains "config" = hasConfig ∧
      (Registry.init (buildReserved hasConfig hasEnv)).reserved.contains "env" = hasEnv) ∧
    (∀ (reg : Registry) (n : String), reg.frozen = false → nameMatches n = true →
      reg.reserved.contains n = true →
      (∀ (h : String) (o : Option Int),
        reg.addGroup n h o = (some (.conflict n "is a reserved name"), reg)) ∧
      (∀ (gp : Option String) (cb : Nat) (h : String) (o : Option Int),
        reg.addCommand gp n cb h o = (some (.conflict n "is a reserved name"), reg)) ∧
      (∀ (gp : Option String) (ta : Nat) (h : String) (o : Option Int),
        reg.addTyperApp gp ta n h o = (some (.conflict n "is a reserved name"), reg))) ∧
    (((Registry.init (buildReserved false false)).addCommand none "config" 7 "" none).1
      = none) ∧
    (∀ hasConfig hasEnv : Bool, (createAppRegistry hasConfig hasEnv).1 = none) := by
  refine ⟨by decide, ?_, by decide, by decide⟩
  intro reg n hf hm hres
  have hres' : n ∈ reg.reserved := by simpa using hres
  have hval : reg.validateName n = some (.conflict n "is a reserved name") := by
    simp [Registry.validateName, hm, hres']
  refine ⟨?_, ?_, ?_⟩
  · intro h o; simp [Registry.addGroup, hf, hval]
  · intro gp cb h o; simp [Registry.addCommand, hf, hval]
  · intro gp ta h o; simp [Registry.addTyperApp, hf, hval]

/-- Witness for C7: `config` is rejected for a third party while the config
group is enabled. -/
theorem reserved_name_contract_witness :
    (Registry.init (buildReserved true false)).addGroup "config" "Mine." none
      = (some (.conflict "config" "is a reserved name"),
         Registry.init (buildReserved true false)) :=
  ((reserved_name_contract.2.1 (Registry.init (buildReserved true false)) "config"
    rfl rfl rfl).1 "Mine." none)

theorem validateName_none_elim {reg : Registry} {n : String}
    (hv : reg.validateName n = none) :
    nameMatches n = true ∧ reg.reserved.contains n = false := by
  unfold Registry.validateName at hv
  by_cases h1 : nameMatches n
  · by_cases h2 : reg.reserved.contains n
    · simp [h1, h2] at hv
      exact absurd (by simpa using h2) hv
    · exact ⟨h1, by simpa using h2⟩
  · simp [h1] at hv

theorem validateName_none_of_parts {reg : Registry} {n : String}
    (hm : nameMatches n = true) (hc : reg.reserved.contains n = false) :
    reg.validateName n = none := by
  simp [Registry.validateName, hm]
  simpa using hc

theorem findNode_append_of_none {l : List Node} {n : String}
    (h : findNode l n = none) (nd : Node) (hn : nd.name = n) :
    findNode (l ++ [nd]) n = some nd := by
  rw [findNode_append, h]
  simp [findNode, List.find?, hn]

theorem replaceNode_append_single {l : List Node} {n : String}
    (h : findNode l n = none) (nd nd' : Node) (hn : nd.name = n) :
    replaceNode (l ++ [nd]) n nd' = l ++ [nd'] := by
  have h0 := replaceNode_of_findNode_none h nd'
  unfold replaceNode at h0 ⊢
  rw [List.map_append, h0]
  simp [hn]

/-- C1: root-level group registration merges.  With a valid unreserved name on
an unfrozen registry that does not yet hold the name: the first `add_group`
creates one GROUP node; repeating it with the identical non-empty help text
succeeds and leaves the roots unchanged (idempotent, still exactly that one
node); a different non-empty help text raises a conflict whose message names
both texts; registering first with empty help and then with non-empty help
backfills the node's help text without error; and an empty incoming help text
is a no-op leaving the node (kind, help, order, children) untouched. -/
theorem add_group_merge_contract :
    ∀ (reg : Registry) (n h h2 : String) (o : Option Int),
    reg.frozen = false → reg.validateName n = none →
    findNode reg.roots n = none → h ≠ "" → h2 ≠ "" → h2 ≠ h →
    (reg.addGroup n h o =
      (none, { reg with
        roots := reg.roots ++ [Node.mk .group n h (nextOrderVal reg.counter o).1 none none []],
        counter := (nextOrderVal reg.counter o).2 })) ∧
    (((reg.addGroup n h o).2.addGroup n h none).1 = none ∧
      ((reg.addGroup n h o).2.addGroup n h none).2.roots = (reg.addGroup n h o).2.roots) ∧
    (((reg.addGroup n h o).2.addGroup n h2 none).1 =
      some (.conflict n ("group help mismatch: '" ++ h ++ "' vs '" ++ h2 ++ "'"))) ∧
    (((reg.addGroup n "" o).2.addGroup n h none).1 = none ∧
      ((reg.addGroup n "" o).2.addGroup n h none).2.roots =
        reg.roots ++ [Node.mk .group n h (nextOrderVal reg.counter o).1 none none []]) ∧
    (((reg.addGroup n h o).2.addGroup n "" none).1 = none ∧
      ((reg.addGroup n h o).2.addGroup n "" none).2.roots = (reg.addGroup n h o).2.roots) := by
  intro reg n h h2 o hf hv hfind hh hh2 hne
  obtain ⟨hm, hc⟩ := validateName_none_elim hv
  have hfresh : ∀ ht : String, reg.addGroup n ht o =
      (none, { reg with
        roots := reg.roots ++ [Node.mk .group n ht (nextOrderVal reg.counter o).1 none none []],
        counter := (nextOrderVal reg.counter o).2 }) := by
    intro ht
    simp [Registry.addGroup, hf, hv, hfind]
  have hfind' : ∀ ht : String,
      findNode (reg.roots ++ [Node.mk .group n ht (nextOrderVal reg.counter o).1 none none []]) n
        = some (Node.mk .group n ht (nextOrderVal reg.counter o).1 none none []) := by
    intro ht
    exact findNode_append_of_none hfind _ rfl
  have hval' : ∀ (roots' : List Node) (fz : Bool) (c' : Int),
      (Registry.mk roots' fz c' reg.reserved).validateName n = none :=
    fun roots' fz c' => validateName_none_of_parts hm hc
  refine ⟨hfresh h, ?_, ?_, ?_, ?_⟩
  · rw [hfresh h]
    constructor <;>
      simp [Registry.addGroup, hf, hval', hfind' h, Node.kind, Node.help_text, hh]
  · rw [hfresh h]
    simp [Registry.addGroup, hf, hval', hfind' h, Node.kind, Node.help_text, hh, hh2, hne]
  · rw [hfresh ""]
    have hrep := replaceNode_append_single hfind
      (Node.mk .group n "" (nextOrderVal reg.counter o).1 none none [])
      (Node.mk .group n h (nextOrderVal reg.counter o).1 none none []) rfl
    constructor <;>
      simp [Registry.addGroup, hf, hval', hfind' "", Node.kind, Node.help_text, hh,
        Node.withHelp, hrep]
  · rw [hfresh h]
    constructor <;>
      simp [Registry.addGroup, hf, hval', hfind' h, Node.kind, Node.help_text]

/-- Witness for C1 at the `tools` group of the registry test-suite. -/
theorem add_group_merge_contract_witness :
    (Registry.init []).addGroup "tools" "Tool commands." none =
      (none, { Registry.init [] with
        roots := [Node.mk .group "tools" "Tool commands." 1 none none []],
        counter := 1 }) ∧
    (((Registry.init []).addGroup "tools" "Tool commands." none).2.addGroup
        "tools" "Tool commands." none).1 = none :=
  have h := add_group_merge_contract (Registry.init []) "tools" "Tool commands." "Help B." none
    rfl rfl rfl (by decide) (by decide) (by decide)
  ⟨h.1, h.2.1.1⟩

/-- C6: sibling collisions between groups and commands/sub-apps are rejected
in both directions and never merge: a name already present as a non-group
blocks `add_group`; a name already present (in particular as a group) blocks
`add_command`, with the conflict naming the existing kind; and it blocks
`add_typer_app` likewise. -/
theorem group_command_collision_contract :
    ∀ (reg : Registry) (n : String) (nd : Node),
    reg.frozen = false → reg.validateName n = none →
    findNode reg.roots n = some nd →
    (nd.kind ≠ NodeKind.group → ∀ (h : String) (o : Option Int),
      (reg.addGroup n h o).1 =
        some (.conflict n "exists as a command, cannot re-register as group")) ∧
    (∀ (cb : Nat) (h : String) (o : Option Int),
      (reg.addCommand none n cb h o).1 =
        some (.conflict n ("already registered as " ++ nd.kind.lowerName))) ∧
    (∀ (ta : Nat) (h : String) (o : Option Int),
      (reg.addTyperApp none ta n h o).1 =
        some (.conflict n "already registered")) := by
  intro reg n nd hf hv hfind
  refine ⟨?_, ?_, ?_⟩
  · intro hk h o
    simp [Registry.addGroup, hf, hv, hfind, hk]
  · intro cb h o
    simp [Registry.addCommand, hf, hv, hfind, leafPathStr]
  · intro ta h o
    simp [Registry.addTyperApp, hf, hv, hfind, leafPathStr]

/-- Witness for C6 at the `tools` collisions of the registry test-suite. -/
theorem group_command_collision_contract_witness :
    ((((Registry.init []).addCommand none "tools" 0 "" none).2).addGroup "tools" "T." none).1 =
      some (.conflict "tools" "exists as a command, cannot re-register as group") ∧
    ((((Registry.init []).addGroup "tools" "" none).2).addCommand none "tools" 1 "" none).1 =
      some (.conflict "tools" ("already registered as " ++ NodeKind.group.lowerName)) ∧
    ((((Registry.init []).addGroup "tools" "" none).2).addTyperApp none 9 "tools" "" none).1 =
      some (.conflict "tools" "already registered") :=
  have h1 := group_command_collision_contract
    (((Registry.init []).addCommand none "tools" 0 "" none).2) "tools"
    (Node.mk .command "tools" "" 1 (some 0) none []) rfl rfl rfl
  have h2 := group_command_collision_contract
    (((Registry.init []).addGroup "tools" "" none).2) "tools"
    (Node.mk .group "tools" "" 1 none none []) rfl rfl rfl
  ⟨h1.1 (by decide) "T." none, h2.2.1 1 "" none, h2.2.2 9 "" none⟩

/-- C4: path resolution.  On an unfrozen registry with a valid unreserved leaf
name: (i) registering under `"a/b"` when `a` is absent at root auto-creates
both `a` and `b` as GROUP nodes with empty help text and auto-assigned orders
and puts the leaf under `b`; (ii) if the first segment exists but is a
command, resolution fails with a conflict naming sub-path `a` and `expected
group but found command`, leaving the roots unchanged; (iii) if `a` is a group
whose child `b` is a command, the conflict names the exact sub-path `a/b`. -/
theorem path_resolution_contract :
    ∀ (reg : Registry) (n : String) (cb : Nat) (h : String),
    reg.frozen = false → reg.validateName n = none →
    (findNode reg.roots "a" = none →
      reg.addCommand (some "a/b") n cb h none =
        (none, { reg with
          roots := reg.roots ++
            [Node.mk .group "a" "" (reg.counter + 2) none none
              [Node.mk .group "b" "" (reg.counter + 3) none none
                [Node.mk .command n h (reg.counter + 1) (some cb) none []]]],
          counter := reg.counter + 3 })) ∧
    (∀ nd : Node, findNode reg.roots "a" = some nd → nd.kind = NodeKind.command →
      reg.addCommand (some "a/b") n cb h none =
        (some (.conflict "a" "expected group but found command"),
         { reg with counter := reg.counter + 1 })) ∧
    (∀ nd : Node, findNode reg.roots "a" = some nd → nd.kind = NodeKind.group →
      ∀ ndb : Node, findNode nd.children "b" = some ndb → ndb.kind = NodeKind.command →
      (reg.addCommand (some "a/b") n cb h none).1 =
        some (.conflict "a/b" "expected group but found command")) := by
  intro reg n cb h hf hv
  have hsplit : splitSlash "a/b" = ["a", "b"] := rfl
  have hj1 : String.intercalate "/" ["a"] = "a" := rfl
  have hj2 : String.intercalate "/" ["a", "b"] = "a/b" := rfl
  refine ⟨?_, ?_, ?_⟩
  · intro hfind
    simp [Registry.addCommand, hf, hv, hsplit, resolveInsert, hfind, findNode_nil,
      nextOrderVal, Node.withChildren]
    omega
  · intro nd hfind hk
    simp [Registry.addCommand, hf, hv, hsplit, resolveInsert, hfind, hk,
      NodeKind.lowerName, nextOrderVal, hj1]
  · intro nd hfind hk ndb hfindb hkb
    simp [Registry.addCommand, hf, hv, hsplit, resolveInsert, hfind, hk, hfindb, hkb,
      NodeKind.lowerName, nextOrderVal, hj1, hj2]

/-- Witness for C4: auto-creation from an empty registry, and both mismatch
shapes. -/
theorem path_resolution_contract_witness :
    (Registry.init []).addCommand (some "a/b") "leaf" 0 "" none =
      (none, { Registry.init [] with
        roots := [Node.mk .group "a" "" 2 none none
          [Node.mk .group "b" "" 3 none none
            [Node.mk .command "leaf" "" 1 (some 0) none []]]],
        counter := 3 }) ∧
    (((Registry.init []).addCommand none "a" 0 "" none).2.addCommand
        (some "a/b") "leaf" 1 "" none).1 =
      some (.conflict "a" "expected group but found command") ∧
    (((((Registry.init []).addGroup "a" "" none).2.addCommand
        (some "a") "b" 0 "" none).2).addCommand (some "a/b") "leaf" 1 "" none).1 =
      some (.conflict "a/b" "expected group but found command") :=
  have h1 := path_resolution_contract (Registry.init []) "leaf" 0 "" rfl rfl
  have h2 := path_resolution_contract
    (((Registry.init []).addCommand none "a" 0 "" none).2) "leaf" 1 "" rfl rfl
  have h3 := path_resolution_contract
    (((((Registry.init []).addGroup "a" "" none).2.addCommand
      (some "a") "b" 0 "" none).2)) "leaf" 1 "" rfl rfl
  ⟨h1.1 rfl,
   by rw [h2.2.1 (Node.mk .command "a" "" 1 (some 0) none []) rfl rfl],
   h3.2.2 (Node.mk .group "a" "" 1 none none
      [Node.mk .command "b" "" 2 (some 0) none []]) rfl rfl
    (Node.mk .command "b" "" 2 (some 0) none []) rfl rfl⟩

theorem pairwise_sortNodes (l : List Node) :
    List.Pairwise (fun a b : Node => a.order ≤ b.order) (sortNodes l) := by
  haveI : IsTotal Node (fun a b => a.order ≤ b.order) := ⟨fun a b => le_total _ _⟩
  haveI : IsTrans Node (fun a b => a.order ≤ b.order) :=
    ⟨fun a b c hab hbc => le_trans hab hbc⟩
  exact List.sorted_insertionSort _ l

theorem applyNode_name (nd : Node) : (applyNode nd).name = nd.name := by
  cases nd with
  | mk k n h o cb ta c => cases k <;> simp [applyNode, MatTree.name, Node.name]

theorem applyTree_map_name (reg : Registry) :
    reg.applyTree.map MatTree.name = reg.rootNames := by
  unfold Registry.applyTree Registry.rootNames
  rw [List.map_map]
  exact List.map_congr_left (fun nd _ => applyNode_name nd)

theorem addCommand_root_fresh (reg : Registry) (n : String) (cb : Nat) (h : String)
    (o : Option Int) (hf : reg.frozen = false) (hv : reg.validateName n = none)
    (hfind : findNode reg.roots n = none) :
    reg.addCommand none n cb h o =
      (none, { reg with
        roots := reg.roots ++
          [Node.mk .command n h (nextOrderVal reg.counter o).1 (some cb) none []],
        counter := (nextOrderVal reg.counter o).2 }) := by
  simp [Registry.addCommand, hf, hv, hfind, leafPathStr]

/-- C5: materialization ordering.  `apply` visits sibling nodes sorted by
their `order` value (the sorted sibling list is pairwise ordered, and the
materialized names are exactly the sorted node names); a registration that
omits `order` is assigned the incremented counter; hence three commands
registered with no explicit order materialize in exact registration order;
two commands registered with explicit orders later-20 then 10 materialize
10-first regardless of registration sequence; and equal explicit orders
preserve relative registration order (stable sort). -/
theorem materialization_ordering_contract :
    (∀ l : List Node, List.Pairwise (fun a b : Node => a.order ≤ b.order) (sortNodes l)) ∧
    (∀ reg : Registry, reg.applyTree.map MatTree.name = reg.rootNames) ∧
    (∀ (reg : Registry) (n : String) (cb : Nat) (h : String),
      reg.frozen = false → reg.validateName n = none → findNode reg.roots n = none →
      reg.addCommand none n cb h none =
        (none, { reg with
          roots := reg.roots ++ [Node.mk .command n h (reg.counter + 1) (some cb) none []],
          counter := reg.counter + 1 })) ∧
    (∀ (c : Int) (res : List String) (n1 n2 n3 : String) (cb1 cb2 cb3 : Nat),
      nameMatches n1 = true → nameMatches n2 = true → nameMatches n3 = true →
      res.contains n1 = false → res.contains n2 = false → res.contains n3 = false →
      (n1 == n2) = false → (n1 == n3) = false → (n2 == n3) = false →
      ((((Registry.mk [] false c res).addCommand none n1 cb1 "" none).2.addCommand
          none n2 cb2 "" none).2.addCommand none n3 cb3 "" none).2.rootNames
        = [n1, n2, n3]) ∧
    (∀ (c : Int) (res : List String) (n1 n2 : String) (cb1 cb2 : Nat) (oA oB : Int),
      nameMatches n1 = true → nameMatches n2 = true →
      res.contains n1 = false → res.contains n2 = false →
      (n1 == n2) = false → oB < oA →
      (((Registry.mk [] false c res).addCommand none n1 cb1 "" (some oA)).2.addCommand
          none n2 cb2 "" (some oB)).2.rootNames = [n2, n1]) ∧
    (∀ (c : Int) (res : List String) (n1 n2 : String) (cb1 cb2 : Nat) (o : Int),
      nameMatches n1 = true → nameMatches n2 = true →
      res.contains n1 = false → res.contains n2 = false →
      (n1 == n2) = false →
      (((Registry.mk [] false c res).addCommand none n1 cb1 "" (some o)).2.addCommand
          none n2 cb2 "" (some o)).2.rootNames = [n1, n2]) := by
  refine ⟨pairwise_sortNodes, applyTree_map_name, ?_, ?_, ?_, ?_⟩
  · intro reg n cb h hf hv hfind
    exact addCommand_root_fresh reg n cb h none hf hv hfind
  · intro c res n1 n2 n3 cb1 cb2 cb3 hm1 hm2 hm3 hc1 hc2 hc3 h12 h13 h23
    have s1 := addCommand_root_fresh (Registry.mk [] false c res) n1 cb1 "" none rfl
      (validateName_none_of_parts hm1 hc1) rfl
    rw [s1]
    have s2 := addCommand_root_fresh
      (Registry.mk [Node.mk .command n1 "" (c + 1) (some cb1) none []] false (c + 1) res)
      n2 cb2 "" none rfl (validateName_none_of_parts hm2 hc2)
      (by simp [findNode, List.find?, Node.name, h12])
    rw [show ({ Registry.mk [] false c res with
        roots := [] ++ [Node.mk .command n1 "" (nextOrderVal c none).1 (some cb1) none []],
        counter := (nextOrderVal c none).2 } : Registry)
      = Registry.mk [Node.mk .command n1 "" (c + 1) (some cb1) none []] false (c + 1) res
      from rfl, s2]
    have s3 := addCommand_root_fresh
      (Registry.mk [Node.mk .command n1 "" (c + 1) (some cb1) none [],
        Node.mk .command n2 "" (c + 2) (some cb2) none []] false (c + 2) res)
      n3 cb3 "" none rfl (validateName_none_of_parts hm3 hc3)
      (by simp [findNode, List.find?, Node.name, h13, h23])
    rw [show ({ Registry.mk [Node.mk .command n1 "" (c + 1) (some cb1) none []] false (c + 1) res with
        roots := [Node.mk .command n1 "" (c + 1) (some cb1) none []] ++
          [Node.mk .command n2 "" (nextOrderVal (c + 1) none).1 (some cb2) none []],
        counter := (nextOrderVal (c + 1) none).2 } : Registry)
      = Registry.mk [Node.mk .command n1 "" (c + 1) (some cb1) none [],
          Node.mk .command n2 "" (c + 2) (some cb2) none []] false (c + 2) res
      from by simp [nextOrderVal]; omega, s3]
    have hsorted : List.Sorted (fun a b : Node => a.order ≤ b.order)
        [Node.mk .command n1 "" (c + 1) (some cb1) none [],
         Node.mk .command n2 "" (c + 2) (some cb2) none [],
         Node.mk .command n3 "" (nextOrderVal (c + 2) none).1 (some cb3) none []] := by
      refine List.Pairwise.cons ?_ (List.Pairwise.cons ?_ (List.Pairwise.cons ?_ .nil))
      · intro y hy
        simp only [List.mem_cons, List.mem_singleton] at hy
        rcases hy with rfl | rfl | hy
        · simp only [Node.order]; omega
        · simp only [Node.order, nextOrderVal]; omega
        · cases hy
      · intro y hy
        simp only [List.mem_singleton] at hy
        subst hy
        simp only [Node.order, nextOrderVal]; omega
      · intro y hy; cases hy
    have heq : sortNodes
        [Node.mk .command n1 "" (c + 1) (some cb1) none [],
         Node.mk .command n2 "" (c + 2) (some cb2) none [],
         Node.mk .command n3 "" (nextOrderVal (c + 2) none).1 (some cb3) none []] =
        [Node.mk .command n1 "" (c + 1) (some cb1) none [],
         Node.mk .command n2 "" (c + 2) (some cb2) none [],
         Node.mk .command n3 "" (nextOrderVal (c + 2) none).1 (some cb3) none []] :=
      hsorted.insertionSort_eq
    simp [Registry.rootNames, heq, Node.name]
  · intro c res n1 n2 cb1 cb2 oA oB hm1 hm2 hc1 hc2 h12 hlt
    have s1 := addCommand_root_fresh (Registry.mk [] false c res) n1 cb1 "" (some oA) rfl
      (validateName_none_of_parts hm1 hc1) rfl
    rw [s1]
    have s2 := addCommand_root_fresh
      (Registry.mk [Node.mk .command n1 "" oA (some cb1) none []] false c res)
      n2 cb2 "" (some oB) rfl (validateName_none_of_parts hm2 hc2)
      (by simp [findNode, List.find?, Node.name, h12])
    rw [show ({ Registry.mk [] false c res with
        roots := [] ++ [Node.mk .command n1 "" (nextOrderVal c (some oA)).1 (some cb1) none []],
        counter := (nextOrderVal c (some oA)).2 } : Registry)
      = Registry.mk [Node.mk .command n1 "" oA (some cb1) none []] false c res
      from rfl, s2]
    have heq : sortNodes
        [Node.mk .command n1 "" oA (some cb1) none [],
         Node.mk .command n2 "" oB (some cb2) none []] =
        [Node.mk .command n2 "" oB (some cb2) none [],
         Node.mk .command n1 "" oA (some cb1) none []] := by
      rw [sortNodes_pair, if_neg]
      simp only [Node.order]
      omega
    simp [Registry.rootNames, nextOrderVal, heq, Node.name]
  · intro c res n1 n2 cb1 cb2 o hm1 hm2 hc1 hc2 h12
    have s1 := addCommand_root_fresh (Registry.mk [] false c res) n1 cb1 "" (some o) rfl
      (validateName_none_of_parts hm1 hc1) rfl
    rw [s1]
    have s2 := addCommand_root_fresh
      (Registry.mk [Node.mk .command n1 "" o (some cb1) none []] false c res)
      n2 cb2 "" (some o) rfl (validateName_none_of_parts hm2 hc2)
      (by simp [findNode, List.find?, Node.name, h12])
    rw [show ({ Registry.mk [] false c res with
        roots := [] ++ [Node.mk .command n1 "" (nextOrderVal c (some o)).1 (some cb1) none []],
        counter := (nextOrderVal c (some o)).2 } : Registry)
      = Registry.mk [Node.mk .command n1 "" o (some cb1) none []] false c res
      from rfl, s2]
    have heq : sortNodes
        [Node.mk .command n1 "" o (some cb1) none [],
         Node.mk .command n2 "" o (some cb2) none []] =
        [Node.mk .command n1 "" o (some cb1) none [],
         Node.mk .command n2 "" o (some cb2) none []] := by
      rw [sortNodes_pair, if_pos]
      simp only [Node.order]
      omega
    simp [Registry.rootNames, nextOrderVal, heq, Node.name]

/-- Witness for C5 at the ordering scenarios of the registry test-suite. -/
theorem materialization_ordering_contract_witness :
    ((((Registry.mk [] false 0 []).addCommand none "beta" 0 "" none).2.addCommand
        none "alpha" 1 "" none).2.addCommand none "gamma" 2 "" none).2.rootNames
      = ["beta", "alpha", "gamma"] ∧
    (((Registry.mk [] false 0 []).addCommand none "second" 0 "" (some 20)).2.addCommand
        none "first" 1 "" (some 10)).2.rootNames = ["first", "second"] ∧
    (((Registry.mk [] false 0 []).addCommand none "x1" 0 "" (some 5)).2.addCommand
        none "x2" 1 "" (some 5)).2.rootNames = ["x1", "x2"] :=
  ⟨materialization_ordering_contract.2.2.2.1 0 [] "beta" "alpha" "gamma" 0 1 2
      rfl rfl rfl rfl rfl rfl rfl rfl rfl,
   materialization_ordering_contract.2.2.2.2.1 0 [] "second" "first" 0 1 20 10
      rfl rfl rfl rfl rfl (by decide),
   materialization_ordering_contract.2.2.2.2.2 0 [] "x1" "x2" 0 1 5
      rfl rfl rfl rfl rfl⟩

/-- C10: auto-created path segments bypass the naming and reservation policy.
The resolver creates a GROUP node carrying the exact segment name for any
absent segment string, whatever its spelling — no name validation and no
reserved-name check is applied to it; concretely, a third-party registration
under path `"config"` succeeds and creates a group named `config` even while
`config` is reserved, a registration under path `"Upper_Case"` succeeds even
though that string fails the naming regex, and only the leaf name argument is
validated and reservation-checked (the same reserved leaf name is rejected). -/
theorem auto_created_segment_bypass :
    (∀ (act : List Node → Int → Option RegError × List Node × Int)
      (seg : String) (done : List String) (c : Int) (siblings : List Node),
      findNode siblings seg = none →
      resolveInsert act [seg] done c siblings =
        ((act [] (c + 1)).1,
         siblings ++ [Node.mk .group seg "" (c + 1) none none (act [] (c + 1)).2.1],
         (act [] (c + 1)).2.2)) ∧
    (((Registry.init (buildReserved true false)).addCommand (some "config") "x" 0 "" none).1
      = none ∧
     ((Registry.init (buildReserved true false)).addCommand
        (some "config") "x" 0 "" none).2.roots.map Node.name = ["config"] ∧
     ((Registry.init (buildReserved true false)).addCommand
        (some "config") "x" 0 "" none).2.roots.map Node.kind = [.group]) ∧
    (((Registry.init []).addCommand (some "Upper_Case") "x" 0 "" none).1 = none ∧
     ((Registry.init []).addCommand
        (some "Upper_Case") "x" 0 "" none).2.roots.map Node.name = ["Upper_Case"]) ∧
    nameMatches "Upper_Case" = false ∧
    ((Registry.init (buildReserved true false)).addCommand
        (some "config") "config" 0 "" none).1 =
      some (.conflict "config" "is a reserved name") := by
  refine ⟨?_, by refine ⟨rfl, rfl, rfl⟩, ⟨rfl, rfl⟩, rfl, rfl⟩
  intro act seg done c siblings hfind
  simp [resolveInsert, hfind]

/-- Witness for C10: the general bypass conjunct at a concrete reserved,
syntactically invalid segment. -/
theorem auto_created_segment_bypass_witness :
    resolveInsert (fun s c => (none, s, c)) ["Bad_Seg"] [] 0 [] =
      (none, [Node.mk .group "Bad_Seg" "" 1 none none []], 1) :=
  auto_created_segment_bypass.1 (fun s c => (none, s, c)) "Bad_Seg" [] 0 [] rfl

theorem nameCharsOk_of_mem_slash {l : List Char} (h : '/' ∈ l) :
    nameCharsOk l = false := by
  cases l with
  | nil => cases h
  | cons c cs =>
    rcases List.mem_cons.mp h with rfl | hmem
    · simp [nameCharsOk, isLowerAZ]
    · unfold nameCharsOk
      rw [Bool.and_eq_false_iff]
      right
      rw [List.all_eq_false]
      exact ⟨'/', hmem, by decide⟩

theorem nameMatches_of_slash {s : String} (h : '/' ∈ s.toList) :
    nameMatches s = false := by
  unfold nameMatches
  dsimp only
  split
  case isTrue hl =>
    apply nameCharsOk_of_mem_slash
    have hne : s.toList ≠ [] := by
      intro hnil
      rw [hnil] at h
      cases h
    have hlast : s.toList.getLast? = some '\n' := by simpa using hl
    have hdecomp := List.dropLast_append_getLast hne
    have hgl : s.toList.getLast hne = '\n' := by
      have := List.getLast?_eq_getLast s.toList hne
      rw [hlast] at this
      exact (Option.some.injEq _ _).mp this.symm
    rw [← hdecomp, hgl] at h
    rcases List.mem_append.mp h with hmem | hmem
    · exact hmem
    · simp at hmem
  case isFalse => exact nameCharsOk_of_mem_slash h

/-- C3 counterexample: `add_group` does not take a `path_or_root` argument —
it has a single name parameter and registers at root level only.  Handing it
the slash path `"a/b"` (the claim's parent-chain scenario) does not resolve or
auto-create any parent chain: it fails name validation and leaves the registry
untouched. -/
theorem add_group_path_counterexample :
    (Registry.init []).addGroup "a/b" "Help." none =
      (some (.invalidName "a/b"), Registry.init []) := rfl

/-- C3 amended: `add_group(name, help_text?, order?)` validates `name` and
registers the group at root level only; a slash-delimited path passed as the
name is rejected as an invalid name (for every string containing `'/'`),
leaving the registry unchanged; parent-chain resolution and auto-creation are
available only through the `group_path` parameter of `add_command` /
`add_typer_app`. -/
theorem add_group_root_only_contract :
    (∀ (reg : Registry) (n h : String) (o : Option Int),
      reg.frozen = false → reg.validateName n = none → findNode reg.roots n = none →
      reg.addGroup n h o =
        (none, { reg with
          roots := reg.roots ++
            [Node.mk .group n h (nextOrderVal reg.counter o).1 none none []],
          counter := (nextOrderVal reg.counter o).2 })) ∧
    (∀ s : String, '/' ∈ s.toList → nameMatches s = false) ∧
    (∀ (reg : Registry) (s h : String) (o : Option Int),
      reg.frozen = false → '/' ∈ s.toList →
      reg.addGroup s h o = (some (.invalidName s), reg)) ∧
    (∀ (reg : Registry) (n : String) (cb : Nat) (h : String),
      reg.frozen = false → reg.validateName n = none → findNode reg.roots "a" = none →
      (reg.addCommand (some "a/b") n cb h none).2.roots.map Node.name =
        reg.roots.map Node.name ++ ["a"]) := by
  refine ⟨?_, fun s h => nameMatches_of_slash h, ?_, ?_⟩
  · intro reg n h o hf hv hfind
    simp [Registry.addGroup, hf, hv, hfind]
  · intro reg s h o hf hslash
    simp [Registry.addGroup, hf, Registry.validateName, nameMatches_of_slash hslash]
  · intro reg n cb h hf hv hfind
    have hsplit : splitSlash "a/b" = ["a", "b"] := rfl
    simp [Registry.addCommand, hf, hv, hsplit, resolveInsert, hfind, findNode_nil,
      nextOrderVal, Node.withChildren, Node.name]

/-- Witness for the amended C3 at concrete inputs. -/
theorem add_group_root_only_contract_witness :
    (Registry.init []).addGroup "tools" "Tools." none =
      (none, { Registry.init [] with
        roots := [Node.mk .group "tools" "Tools." 1 none none []], counter := 1 }) ∧
    (Registry.init []).addGroup "x/y" "" none =
      (some (.invalidName "x/y"), Registry.init []) ∧
    ((Registry.init []).addCommand (some "a/b") "leaf" 0 "" none).2.roots.map Node.name
      = ["a"] :=
  ⟨add_group_root_only_contract.1 (Registry.init []) "tools" "Tools." none rfl rfl rfl,
   add_group_root_only_contract.2.2.1 (Registry.init []) "x/y" "" none rfl (by decide),
   add_group_root_only_contract.2.2.2 (Registry.init []) "leaf" 0 "" rfl rfl rfl⟩

end CliRootYo
